import Mathlib

/-!
Shallow embedding of the GraphQL file-sharing chat backend
(`src/backend/index.js`): the in-memory message store, the `postMessage`
mutation with its optional file upload, the `messages` query, the
publish/subscribe broadcast channel, and the static file server over the
uploads directory.
-/

/-- The `File` GraphQL type (index.js lines 47-52) and the `fileData`
record built at lines 100-105. -/
structure FileRec where
  filename : String
  mimetype : String
  encoding : String
  url : String
deriving Repr, DecidableEq

/-- The `Message` GraphQL type (index.js lines 54-59) and the stored record
built at lines 108-113: `content` and `file` are nullable. -/
structure Message where
  id : String
  sender : String
  content : Option String
  file : Option FileRec
deriving Repr, DecidableEq

/-- The value a promise-like `file` argument resolves to (index.js lines
87-88): `createReadStream`, `filename`, `mimetype`, `encoding`; the read
stream is modelled by the list of bytes it yields. -/
structure Upload where
  filename : String
  mimetype : String
  encoding : String
  bytes : List Nat
deriving Repr, DecidableEq

/-- The `file` argument of `postMessage` as discriminated by the guard
`file && typeof file.then === 'function'` (index.js line 86): absent or
null (falsy), a promise-like value resolving to an upload, or a truthy
value with no `then` function. -/
inductive FileArg where
  | null : FileArg
  | thenable : Upload → FileArg
  | notThenable : FileArg
deriving Repr, DecidableEq

/-- Contents of the uploads directory: filename to file bytes. -/
abbrev Disk := List (String × List Nat)

/-- Server state: the in-memory `messages` array (index.js line 41), the
uploads directory contents, the ordered log of records published on the
broadcast channel (line 118), and how many identifiers have been drawn. -/
structure ServerState where
  messages : List Message
  disk : Disk
  pubLog : List Message
  nextId : Nat
deriving Repr, DecidableEq

/-- The state at server start: empty store, empty uploads directory,
nothing yet published. -/
def initialState : ServerState :=
  { messages := [], disk := [], pubLog := [], nextId := 0 }

/-- Modelled from the spec: `uuidv4` of the external `uuid` library
(index.js line 11, called at line 109) is not part of this repository. The
spec says the identifier is "opaque, generated at creation, unique"; one
draw is modelled as a non-empty string determined by the number of
identifiers drawn before it, so distinct draws give distinct identifiers. -/
def uuidv4 (n : Nat) : String := String.mk (List.replicate (n + 1) 'u')

/-- `path.join` as used here: join two path components with a separator. -/
def pathJoin (a b : String) : String := a ++ "/" ++ b

/-- The directories the process sees: the directory holding the backend
module file (`__dirname`, index.js lines 14-15) and the process working
directory. -/
structure Env where
  moduleDir : String
  cwd : String
deriving Repr, DecidableEq

/-- `const uploadsDir = path.join(__dirname, 'uploads')` (index.js line
18): the uploads directory sits next to the backend module file. -/
def uploadsDir (env : Env) : String := pathJoin env.moduleDir "uploads"

/-- `const PORT = 4000` (index.js line 175), passed to
`httpServer.listen` at line 177. -/
def PORT : Nat := 4000

/-- The URL placed in the returned file descriptor (index.js line 104):
hardcoded host, port and route, followed by the original filename. -/
def fileUrl (filename : String) : String :=
  "http://localhost:4000/uploads/" ++ filename

/-- Writing the upload stream to the uploads directory under the original
filename with `fs.createWriteStream` (index.js lines 90-98): an existing
file of the same name is overwritten, with no dedup or collision
handling. -/
def diskWrite (disk : Disk) (filename : String) (bytes : List Nat) : Disk :=
  (filename, bytes) :: disk.filter (fun e => e.1 ≠ filename)

/-- Reading one file of the uploads directory. -/
def diskRead (disk : Disk) (filename : String) : Option (List Nat) :=
  List.lookup filename disk

/-- A failure surfaced to the GraphQL caller: the write stream error
rejects the awaited promise (index.js line 97), which aborts the async
resolver and propagates as a GraphQL error. -/
inductive GqlError where
  | fileWriteError : GqlError
deriving Repr, DecidableEq

/-- The `Mutation.postMessage` resolver (index.js lines 83-121), in source
order: when the `file` argument is promise-like, await it and stream its
bytes to disk once — a stream error rejects the mutation there, before
anything else happens; otherwise `fileData` stays null. Then build the
record with a fresh identifier, push it onto `messages`, publish it on the
broadcast channel and return it. `diskFail` says whether the write stream
emits an error. The state is returned alongside the result so the effect
of a failed call stays visible. -/
def postMessage (st : ServerState) (sender : String) (content : Option String)
    (file : FileArg) (diskFail : Bool) : Except GqlError Message × ServerState :=
  let finish : Option FileRec → Disk → Except GqlError Message × ServerState :=
    fun fileData disk =>
      let message : Message :=
        { id := uuidv4 st.nextId, sender := sender, content := content,
          file := fileData }
      (Except.ok message,
        { messages := st.messages ++ [message], disk := disk,
          pubLog := st.pubLog ++ [message], nextId := st.nextId + 1 })
  match file with
  | FileArg.thenable u =>
      if diskFail then
        (Except.error GqlError.fileWriteError, st)
      else
        finish
          (some { filename := u.filename, mimetype := u.mimetype,
                  encoding := u.encoding, url := fileUrl u.filename })
          (diskWrite st.disk u.filename u.bytes)
  | _ => finish none st.disk

namespace Query

/-- The `Query.messages` resolver (index.js line 79): returns the
in-memory array itself, unfiltered and unpaginated. -/
def messages (st : ServerState) : List Message := st.messages

end Query

/-- Modelled from the spec: the broadcast channel (the `PubSub` instance of
the external graphql-subscriptions library, index.js lines 37, 118, 126)
is not part of this repository. Per the spec contract — every subscriber
receives every message published after it subscribes, with no replay of
history — a subscriber is identified by the length of the publish log at
the moment it subscribes. -/
def subscribeAt (st : ServerState) : Nat := st.pubLog.length

/-- The records the broadcast channel has delivered to a subscriber that
subscribed when the publish log had length `sub`: exactly what was
published afterwards. -/
def receivedBy (st : ServerState) (sub : Nat) : List Message :=
  st.pubLog.drop sub

/-- Splitting a leading pattern off a character list: `peel p l` is `some r`
exactly when `l = p ++ r`. Used to model route matching of the static
middleware. -/
def peel : List Char → List Char → Option (List Char)
  | [], l => some l
  | _ :: _, [] => none
  | a :: as, b :: bs => if a = b then peel as bs else none

/-- An HTTP GET against the running server, restricted to the static
uploads route: `express.static(uploadsDir)` mounted at `/uploads`
(index.js line 31) serves the file of the uploads directory named by the
rest of the path, so the full URL of a served file is
`http://localhost:4000/uploads/` followed by its filename. -/
def httpGet (disk : Disk) (url : String) : Option (List Nat) :=
  match peel "http://localhost:4000/uploads/".data url.data with
  | some rest => diskRead disk (String.mk rest)
  | none => none

/-- The arguments of one `postMessage` call, together with the fate of its
disk write. -/
structure PostCall where
  sender : String
  content : Option String
  file : FileArg
  diskFail : Bool
deriving Repr, DecidableEq

/-- Run a sequence of `postMessage` calls from a state. -/
def runPosts (st : ServerState) : List PostCall → ServerState
  | [] => st
  | c :: cs => runPosts (postMessage st c.sender c.content c.file c.diskFail).2 cs

/-- Record returned by a first sample call posting "hi" as "Alice". -/
def msgA : Message :=
  { id := uuidv4 0, sender := "Alice", content := some "hi", file := none }

/-- State after that first sample call, starting from server start. -/
def stA : ServerState :=
  { messages := [msgA], disk := [], pubLog := [msgA], nextId := 1 }

/-- Record returned by a second identical sample call. -/
def msgB : Message :=
  { id := uuidv4 1, sender := "Alice", content := some "hi", file := none }

/-- State after the two sample calls. -/
def stB : ServerState :=
  { messages := [msgA, msgB], disk := [], pubLog := [msgA, msgB], nextId := 2 }

/-- Sample upload used as concrete input. -/
def upA : Upload :=
  { filename := "a.txt", mimetype := "text/plain", encoding := "7bit",
    bytes := [104, 105] }

/-- Record returned when posting the sample upload from server start. -/
def msgF : Message :=
  { id := uuidv4 0, sender := "Alice", content := none,
    file := some { filename := "a.txt", mimetype := "text/plain",
                   encoding := "7bit", url := fileUrl "a.txt" } }

/-- State after posting the sample upload from server start. -/
def stF : ServerState :=
  { messages := [msgF], disk := [("a.txt", [104, 105])],
    pubLog := [msgF], nextId := 1 }

/-- One further sample call, used to run the system past a publish. -/
def callB : PostCall :=
  { sender := "Bob", content := some "yo", file := FileArg.null,
    diskFail := false }

/-- The record stored by a call with null content and no file. -/
def bareMsg : Message :=
  { id := uuidv4 0, sender := "Alice", content := none, file := none }

/-- Each identifier draw gives a string of positive length. -/
theorem uuidv4_length (n : Nat) : (uuidv4 n).length = n + 1 := by
  simp [uuidv4, String.length_mk]

/-- Identifiers are never the empty string. -/
theorem uuidv4_ne_empty (n : Nat) : uuidv4 n ≠ "" := by
  intro h
  have hl := uuidv4_length n
  rw [h, String.length_empty] at hl
  omega

/-- Distinct draws give distinct identifiers. -/
theorem uuidv4_injective : Function.Injective uuidv4 := by
  intro a b h
  have ha := uuidv4_length a
  have hb := uuidv4_length b
  rw [h] at ha
  omega

/-- What a successful `postMessage` call does: the returned record carries a
fresh identifier and the given sender and content, and the new state extends
the store and the publish log by exactly that record. -/
theorem postMessage_ok (st : ServerState) (s : String) (c : Option String)
    (fa : FileArg) (d : Bool) (m : Message) (st' : ServerState)
    (h : postMessage st s c fa d = (Except.ok m, st')) :
    m.id = uuidv4 st.nextId ∧ m.sender = s ∧ m.content = c ∧
      st'.messages = st.messages ++ [m] ∧ st'.pubLog = st.pubLog ++ [m] ∧
      st'.nextId = st.nextId + 1 := by
  cases fa with
  | null =>
      simp only [postMessage, Prod.mk.injEq, Except.ok.injEq] at h
      obtain ⟨hm, hst⟩ := h
      subst hm
      subst hst
      exact ⟨rfl, rfl, rfl, rfl, rfl, rfl⟩
  | thenable u =>
      cases d with
      | true => simp [postMessage] at h
      | false =>
          simp only [postMessage, Bool.false_eq_true, if_false, Prod.mk.injEq,
            Except.ok.injEq] at h
          obtain ⟨hm, hst⟩ := h
          subst hm
          subst hst
          exact ⟨rfl, rfl, rfl, rfl, rfl, rfl⟩
  | notThenable =>
      simp only [postMessage, Prod.mk.injEq, Except.ok.injEq] at h
      obtain ⟨hm, hst⟩ := h
      subst hm
      subst hst
      exact ⟨rfl, rfl, rfl, rfl, rfl, rfl⟩

/-- Dropping at most the first list of an append drops inside it. -/
theorem drop_append_of_le {α : Type} (l₁ l₂ : List α) (n : Nat)
    (h : n ≤ l₁.length) : (l₁ ++ l₂).drop n = l₁.drop n ++ l₂ := by
  induction l₁ generalizing n with
  | nil =>
      have : n = 0 := Nat.le_zero.mp h
      subst this
      simp
  | cons a as ih =>
      cases n with
      | zero => simp
      | succ k => simpa using ih k (by simpa using h)

/-- Peeling a pattern off itself followed by anything yields the rest. -/
theorem peel_append (p l : List Char) : peel p (p ++ l) = some l := by
  induction p with
  | nil => simp [peel]
  | cons a as ih => simpa [peel] using ih

/-- Rebuilding a string from its characters gives the string back. -/
theorem mk_data (s : String) : String.mk s.data = s := rfl

/-- A GET of the URL the resolver hands out reads exactly the file of the
uploads directory named by the original filename. -/
theorem httpGet_fileUrl (disk : Disk) (f : String) :
    httpGet disk (fileUrl f) = diskRead disk f := by
  have hdata : (fileUrl f).data = "http://localhost:4000/uploads/".data ++ f.data :=
    String.data_append ..
  unfold httpGet
  rw [hdata, peel_append]

/-- Reading right after writing a file returns the bytes just written. -/
theorem diskRead_diskWrite (disk : Disk) (f : String) (b : List Nat) :
    diskRead (diskWrite disk f b) f = some b := by
  simp [diskRead, diskWrite, List.lookup]

/-- Any `postMessage` call either leaves the publish log and the identifier
counter untouched (the failing-write case) or publishes exactly one record
whose identifier is the current draw and advances the counter by one. -/
theorem postMessage_snd (st : ServerState) (s : String) (c : Option String)
    (fa : FileArg) (d : Bool) :
    ((postMessage st s c fa d).2.pubLog = st.pubLog ∧
        (postMessage st s c fa d).2.nextId = st.nextId) ∨
      (∃ m, m.id = uuidv4 st.nextId ∧
        (postMessage st s c fa d).2.pubLog = st.pubLog ++ [m] ∧
        (postMessage st s c fa d).2.nextId = st.nextId + 1) := by
  cases fa with
  | null => exact Or.inr ⟨_, rfl, rfl, rfl⟩
  | thenable u =>
      cases d with
      | true => exact Or.inl ⟨rfl, rfl⟩
      | false => exact Or.inr ⟨_, rfl, rfl, rfl⟩
  | notThenable => exact Or.inr ⟨_, rfl, rfl, rfl⟩

/-- Running further calls only appends to the publish log, and every record
appended carries an identifier drawn at or after the current counter. -/
theorem runPosts_pubLog (calls : List PostCall) (st : ServerState) :
    ∃ extra, (runPosts st calls).pubLog = st.pubLog ++ extra ∧
      st.nextId ≤ (runPosts st calls).nextId ∧
      ∀ m ∈ extra, ∃ k, st.nextId ≤ k ∧ m.id = uuidv4 k := by
  induction calls generalizing st with
  | nil => exact ⟨[], by simp [runPosts], Nat.le_refl _, by simp⟩
  | cons c cs ih =>
      obtain ⟨extra, hlog, hnext, hids⟩ :=
        ih (postMessage st c.sender c.content c.file c.diskFail).2
      rcases postMessage_snd st c.sender c.content c.file c.diskFail with
        ⟨hp, hn⟩ | ⟨m, hm, hp, hn⟩
      · refine ⟨extra, ?_, ?_, ?_⟩
        · rw [runPosts, hlog, hp]
        · rw [runPosts]
          omega
        · intro x hx
          obtain ⟨k, hk, hkid⟩ := hids x hx
          exact ⟨k, by omega, hkid⟩
      · refine ⟨m :: extra, ?_, ?_, ?_⟩
        · rw [runPosts, hlog, hp]
          simp
        · rw [runPosts]
          omega
        · intro x hx
          rcases List.mem_cons.mp hx with hx | hx
          · subst hx
            exact ⟨st.nextId, Nat.le_refl _, hm⟩
          · obtain ⟨k, hk, hkid⟩ := hids x hx
            exact ⟨k, by omega, hkid⟩

/-- C1: a `postMessage` call with sender "Alice", content "hi" and no file
argument succeeds from any server state and returns a record with a
non-empty identifier, sender "Alice", content "hi" and null file. -/
theorem c1_post_alice_hi (st : ServerState) (d : Bool) :
    ∃ m st', postMessage st "Alice" (some "hi") FileArg.null d = (Except.ok m, st') ∧
      m.id ≠ "" ∧ m.sender = "Alice" ∧ m.content = some "hi" ∧ m.file = none :=
  ⟨_, _, rfl, uuidv4_ne_empty st.nextId, rfl, rfl, rfl⟩

/-- C2: two successive `postMessage` calls with the same sender and content
return records with distinct identifiers, and a subsequent messages query
returns both records, in the order the mutations were applied. -/
theorem c2_two_posts_distinct_in_order (st : ServerState) (s : String)
    (c : Option String) (fa1 fa2 : FileArg) (d1 d2 : Bool)
    (m1 m2 : Message) (st1 st2 : ServerState)
    (h1 : postMessage st s c fa1 d1 = (Except.ok m1, st1))
    (h2 : postMessage st1 s c fa2 d2 = (Except.ok m2, st2)) :
    m1.id ≠ m2.id ∧ Query.messages st2 = Query.messages st ++ [m1, m2] := by
  obtain ⟨hid1, -, -, hmsg1, -, hnext1⟩ := postMessage_ok _ _ _ _ _ _ _ h1
  obtain ⟨hid2, -, -, hmsg2, -, -⟩ := postMessage_ok _ _ _ _ _ _ _ h2
  constructor
  · rw [hid1, hid2, hnext1]
    intro hcontra
    have := uuidv4_injective hcontra
    omega
  · simp [Query.messages, hmsg2, hmsg1]

/-- C2 witness: the two sample calls from server start give distinct
identifiers and the query then lists both records in order. -/
theorem c2_two_posts_distinct_in_order_witness :
    msgA.id ≠ msgB.id ∧
      Query.messages stB = Query.messages initialState ++ [msgA, msgB] :=
  c2_two_posts_distinct_in_order initialState "Alice" (some "hi")
    FileArg.null FileArg.null false false msgA msgB stA stB rfl rfl

/-- C3: the messages query returns exactly the current store contents,
unfiltered and in insertion order, and at server start — before any
mutation — it returns the empty list. -/
theorem c3_messages_query_exact :
    (∀ st : ServerState, Query.messages st = st.messages) ∧
      Query.messages initialState = [] :=
  ⟨fun _ => rfl, rfl⟩

/-- C6: when the disk write of an uploaded file fails, the single write
attempt rejects the mutation and the resolver surfaces a GraphQL error to
the caller instead of a record. -/
theorem c6_write_failure_rejects (st : ServerState) (s : String)
    (c : Option String) (u : Upload) :
    (postMessage st s c (FileArg.thenable u) true).1 =
      Except.error GqlError.fileWriteError := rfl

/-- C9: a `postMessage` call whose disk write fails leaves the server state
exactly as it was — in particular nothing is appended to the message store
and nothing is published on the broadcast channel. -/
theorem c9_write_failure_no_side_effect (st : ServerState) (s : String)
    (c : Option String) (u : Upload) :
    (postMessage st s c (FileArg.thenable u) true).2 = st := rfl

/-- C10: a non-null file argument with no `then` function is silently
ignored: the call succeeds with no error, nothing is written to disk, and
the stored and returned record has a null file. -/
theorem c10_non_thenable_ignored (st : ServerState) (s : String)
    (c : Option String) (d : Bool) :
    ∃ m st', postMessage st s c FileArg.notThenable d = (Except.ok m, st') ∧
      m.file = none ∧ st'.disk = st.disk ∧ st'.messages = st.messages ++ [m] :=
  ⟨_, _, rfl, rfl, rfl, rfl⟩

/-- C4: a successful upload writes the stream bytes to the uploads
directory under the original filename, and an HTTP GET of the URL in the
returned file descriptor reads back exactly the uploaded bytes. -/
theorem c4_upload_roundtrip (st : ServerState) (s : String) (c : Option String)
    (u : Upload) (m : Message) (st' : ServerState)
    (h : postMessage st s c (FileArg.thenable u) false = (Except.ok m, st')) :
    diskRead st'.disk u.filename = some u.bytes ∧
      ∃ fd, m.file = some fd ∧ fd.filename = u.filename ∧
        httpGet st'.disk fd.url = some u.bytes := by
  simp only [postMessage, Bool.false_eq_true, if_false, Prod.mk.injEq,
    Except.ok.injEq] at h
  obtain ⟨hm, hst⟩ := h
  subst hm
  subst hst
  refine ⟨diskRead_diskWrite .., ⟨_, rfl, rfl, ?_⟩⟩
  rw [httpGet_fileUrl, diskRead_diskWrite]

/-- C4 witness: posting the sample upload from server start stores its
bytes under "a.txt" and a GET of the returned URL reads them back. -/
theorem c4_upload_roundtrip_witness :
    diskRead stF.disk upA.filename = some upA.bytes ∧
      ∃ fd, msgF.file = some fd ∧ fd.filename = upA.filename ∧
        httpGet stF.disk fd.url = some upA.bytes :=
  c4_upload_roundtrip initialState "Alice" none upA msgF stF rfl

/-- C5: a subscriber that subscribed before a publish receives the
published record, and a subscriber that subscribes right after the publish
receives that record through no later run of the system. -/
theorem c5_broadcast (st : ServerState) (s : String) (c : Option String)
    (fa : FileArg) (d : Bool) (m : Message) (st' : ServerState) (sub : Nat)
    (h : postMessage st s c fa d = (Except.ok m, st'))
    (hsub : sub ≤ subscribeAt st) :
    m ∈ receivedBy st' sub ∧
      ∀ calls : List PostCall,
        m ∉ receivedBy (runPosts st' calls) (subscribeAt st') := by
  obtain ⟨hid, -, -, -, hpub, hnext⟩ := postMessage_ok _ _ _ _ _ _ _ h
  constructor
  · rw [receivedBy, hpub, drop_append_of_le _ _ _ hsub]
    exact List.mem_append_right _ (List.mem_singleton.mpr rfl)
  · intro calls hmem
    obtain ⟨extra, hlog, -, hids⟩ := runPosts_pubLog calls st'
    rw [receivedBy, hlog, subscribeAt,
      drop_append_of_le _ _ _ (Nat.le_refl _), List.drop_length,
      List.nil_append] at hmem
    obtain ⟨k, hk, hkid⟩ := hids m hmem
    rw [hid] at hkid
    have := uuidv4_injective hkid
    omega

/-- C5 witness: a subscriber present from server start receives the record
of the sample call, and a subscriber joining right after the publish does
not receive it even after one further call. -/
theorem c5_broadcast_witness :
    msgA ∈ receivedBy stA 0 ∧
      msgA ∉ receivedBy (runPosts stA [callB]) (subscribeAt stA) :=
  ⟨(c5_broadcast initialState "Alice" (some "hi") FileArg.null false
      msgA stA 0 rfl (Nat.le_refl 0)).1,
    (c5_broadcast initialState "Alice" (some "hi") FileArg.null false
      msgA stA 0 rfl (Nat.le_refl 0)).2 [callB]⟩

/-- C7 counterexample: with the backend module in one directory and the
process started from another, the uploads directory follows the module
directory, not the process working directory, so the claimed resolution
rule fails. -/
theorem c7_cwd_counterexample :
    uploadsDir { moduleDir := "/srv/app/backend", cwd := "/home/alice" } ≠
      pathJoin "/home/alice" "uploads" := by
  decide

/-- C7 amended: the fixed configuration is port 4000, an uploads directory
resolved against the directory of the backend module file (not the process
working directory), and a public URL in every returned file descriptor
hardcoded to localhost port 4000. -/
theorem c7_fixed_configuration :
    PORT = 4000 ∧
      (∀ env : Env, uploadsDir env = pathJoin env.moduleDir "uploads") ∧
      ∀ (st : ServerState) (s : String) (c : Option String) (u : Upload),
        ∃ m st' fd,
          postMessage st s c (FileArg.thenable u) false = (Except.ok m, st') ∧
          m.file = some fd ∧
          fd.url = "http://localhost:4000/uploads/" ++ u.filename :=
  ⟨rfl, fun _ => rfl, fun _ _ _ _ => ⟨_, _, _, rfl, rfl, rfl⟩⟩

/-- C8 counterexample: posting with null content and no file succeeds and
the store then holds a record with neither content nor file, so the
content-or-file invariant does not hold of every stored record. -/
theorem c8_bare_message_counterexample :
    (postMessage initialState "Alice" none FileArg.null false).1 =
        Except.ok bareMsg ∧
      bareMsg ∈ (postMessage initialState "Alice" none FileArg.null false).2.messages ∧
      bareMsg.content = none ∧ bareMsg.file = none :=
  ⟨rfl, List.mem_singleton.mpr rfl, rfl, rfl⟩

/-- C8 amended: a record created by `postMessage` has content and/or a file
exactly when the call supplied non-null content or a promise-like file;
the resolver itself never enforces the invariant. -/
theorem c8_invariant_iff_supplied (st : ServerState) (s : String)
    (c : Option String) (fa : FileArg) (d : Bool) (m : Message)
    (st' : ServerState)
    (h : postMessage st s c fa d = (Except.ok m, st')) :
    (m.content ≠ none ∨ m.file ≠ none) ↔
      (c ≠ none ∨ ∃ u, fa = FileArg.thenable u) := by
  cases fa with
  | null =>
      simp only [postMessage, Prod.mk.injEq, Except.ok.injEq] at h
      obtain ⟨hm, -⟩ := h
      subst hm
      simp
  | thenable u =>
      cases d with
      | true => simp [postMessage] at h
      | false =>
          simp only [postMessage, Bool.false_eq_true, if_false, Prod.mk.injEq,
            Except.ok.injEq] at h
          obtain ⟨hm, -⟩ := h
          subst hm
          simp
  | notThenable =>
      simp only [postMessage, Prod.mk.injEq, Except.ok.injEq] at h
      obtain ⟨hm, -⟩ := h
      subst hm
      simp

/-- C8 amended witness: for the sample call posting content "hi" as
"Alice" with no file, the stored record satisfies the invariant exactly
because content was supplied. -/
theorem c8_invariant_iff_supplied_witness :
    (msgA.content ≠ none ∨ msgA.file ≠ none) ↔
      ((some "hi" : Option String) ≠ none ∨
        ∃ u, FileArg.null = FileArg.thenable u) :=
  c8_invariant_iff_supplied initialState "Alice" (some "hi") FileArg.null
    false msgA stA rfl
